import Mathlib

/-!
Shallow embedding of `src/gpt_search.py`, a question-answering pipeline that
derives search topics with a language model, resolves one web page per topic,
reduces the retrieved text to fit a token ceiling (truncation followed by one
summarization pass), and asks the model for a final answer.

Python strings are modeled as `List Char` (sequences of code points; Python
`len` and slicing operate on code points).  External collaborators — the
tiktoken tokenizer, the OpenAI completion call, DuckDuckGo search, and the
HTTP fetch — are parameters of the definitions that use them.  Python values
that may be `None` are modeled as `Option`; Python exceptions surface as
`Except` / `Option` results.
-/

namespace GptSearch

/-- A Python string: a sequence of code points. -/
abbrev Str := List Char

/-- Python `str(x)` as used by an f-string on an optional value:
`None` prints as the literal text `None`. -/
def py_str : Option Str → Str
  | none => ['N', 'o', 'n', 'e']
  | some s => s

/-- The `max_token_count` dict (lines 19-22): model name to context ceiling.
A missing key (Python `KeyError`) is `none`. -/
def max_token_count (model : Str) : Option Nat :=
  if model = "gpt-4".data then some 8192
  else if model = "gpt-3.5-turbo".data then some 4097
  else none

/-- `token_count` (lines 44-47): `len(encoding.encode(text)) * 2`.
The tiktoken encoder is external, so it is a parameter `enc`; the token type
of its output list is irrelevant and fixed to `Nat`. -/
def token_count (enc : Str → List Nat) (text : Str) : Nat :=
  (enc text).length * 2

/-- The `background` dict: an insertion-ordered mapping from topic to its
resolved text.  A value is `none` when Python holds `None` there, and
`some []` when it holds the empty string; both are falsy in the guards of
`shorten` and `summarize`. -/
abbrev Background := List (Str × Option Str)

/-- `background_text` (lines 49-52): render each entry as
`subject`, `":\n"`, `str(contents)` and join the entries with a blank line
(`"\n\n".join(...)`).  Python's f-string renders a `None` value as the
literal text `None`, hence `py_str`. -/
def background_text (bg : Background) : Str :=
  List.intercalate ['\n', '\n'] (bg.map fun e => e.1 ++ [':', '\n'] ++ py_str e.2)

/-- The `while` loop of `shorten` (lines 58-59) on one subject's text:
while the token estimate exceeds the ceiling, keep only the first
`int(len(s) * .9)` code points (for all realistic lengths this equals
`9 * len / 10` in integer arithmetic).  Each cut strictly decreases a
positive length, so `fuel = s.length + 1` steps always suffice
(`shortenTextFuel_enough` below); `none` models the one configuration in
which the Python loop never exits — an empty text whose token estimate still
exceeds the ceiling, so that the cut no longer shrinks anything. -/
def shortenTextFuel (tc : Str → Nat) (c : Nat) : Nat → Str → Option Str
  | 0, _ => none
  | fuel + 1, s =>
    if tc s ≤ c then some s
    else shortenTextFuel tc c fuel (s.take (9 * s.length / 10))

/-- One subject's truncation loop of `shorten`, with the always-sufficient
fuel budget made explicit. -/
def shortenText (tc : Str → Nat) (c : Nat) (s : Str) : Option Str :=
  shortenTextFuel tc c (s.length + 1) s

/-- `shorten` (lines 54-60): for each subject in insertion order, skip a
falsy text (`None` or empty), otherwise run the truncation loop on it.
The result is `none` when some subject's loop diverges. -/
def shorten (tc : Str → Nat) (c : Nat) : Background → Option Background
  | [] => some []
  | (k, v) :: rest =>
    match v with
    | none => (shorten tc c rest).map fun r => (k, none) :: r
    | some s =>
      if s = [] then (shorten tc c rest).map fun r => (k, some s) :: r
      else
        match shortenText tc c s with
        | none => none
        | some t => (shorten tc c rest).map fun r => (k, some t) :: r

/-- The loop of `summarize` (lines 62-71), as a traversal with the already
visited entries in `done` and the rest in `todo`.  For each subject in
order: skip a falsy text; otherwise, if the serialized size of the *whole
current* mapping fits the ceiling, return it unchanged (the early
`return background`); otherwise replace the subject's text with the model's
summary and continue.  `sm k s` stands for the completion
`gpt("Concisely summarize the facts about " + k + ":\n" + s)`; the model's
output is external, so `sm` is a parameter. -/
def summarizeGo (tc : Str → Nat) (c : Nat) (sm : Str → Str → Str) :
    Background → Background → Background
  | done, [] => done
  | done, (k, v) :: rest =>
    match v with
    | none => summarizeGo tc c sm (done ++ [(k, none)]) rest
    | some s =>
      if s = [] then summarizeGo tc c sm (done ++ [(k, some s)]) rest
      else if tc (background_text (done ++ (k, some s) :: rest)) ≤ c then
        done ++ (k, some s) :: rest
      else summarizeGo tc c sm (done ++ [(k, some (sm k s))]) rest

/-- `summarize` (lines 62-71): a single pass over the mapping. -/
def summarize (tc : Str → Nat) (c : Nat) (sm : Str → Str → Str)
    (bg : Background) : Background :=
  summarizeGo tc c sm [] bg

/-- The Context Reducer as invoked by `main` (lines 142, 145):
`background = shorten(background)` then `background = summarize(background)`. -/
def context_reduce (tc : Str → Nat) (c : Nat) (sm : Str → Str → Str)
    (bg : Background) : Option Background :=
  match shorten tc c bg with
  | none => none
  | some b => some (summarize tc c sm b)

/-- Lookup in an association-list cache (the key-to-value store behind
`joblib.Memory`). -/
def cache_lookup {α β : Type} [DecidableEq α] (k : α) : List (α × β) → Option β
  | [] => none
  | (a, b) :: t => if k = a then some b else cache_lookup k t

/-- The memoized-call layer (`@memory.cache`, lines 16-17 and each decorated
function): given the wrapped operation `f`, the current persistent cache and
a key (the serialized function identity and arguments), return the result,
the new cache, and how many times the wrapped operation was executed
(0 on a hit, 1 on a miss). -/
def cached_call {α β : Type} [DecidableEq α] (f : α → β)
    (cache : List (α × β)) (k : α) : β × List (α × β) × Nat :=
  match cache_lookup k cache with
  | some r => (r, cache, 0)
  | none => (f k, (k, f k) :: cache, 1)

/-- Python errors that the embedded fragments can raise. -/
inductive PyError : Type
  | typeError
  | assertionError
deriving DecidableEq

/-- The mutable state touched by `gpt`: the persistent joblib cache for
`gpt`, keyed by its arguments `(prompt, model)`, and the global
`gpt_query_count` (line 27). -/
structure GptState : Type where
  cache : List ((Str × Option Str) × Str)
  query_count : Nat
deriving DecidableEq

/-- Python `model or args.model` (line 36): a falsy `model` (absent or empty)
falls back to the active model. -/
def py_or (model : Option Str) (active : Str) : Str :=
  match model with
  | none => active
  | some m => if m = [] then active else m

/-- `gpt` (lines 28-42) together with its `@memory.cache` wrapper.  On a
cache hit the wrapped body never runs: the stored completion is returned and
the state is untouched.  On a miss the body runs: first the
`assert len(prompt) > 25`, whose failure raises before the counter moves and
before any request; then the counter increments and the external completion
call `api model prompt` runs; joblib stores the returned completion.
(joblib does not cache a raised error, so a failing call leaves the cache
unchanged.) -/
def gpt (api : Str → Str → Str) (active : Str) (st : GptState)
    (prompt : Str) (model : Option Str) : Except PyError (Str × GptState) :=
  match cache_lookup (prompt, model) st.cache with
  | some r => .ok (r, st)
  | none =>
    if 25 < prompt.length then
      let r := api (py_or model active) prompt
      .ok (r, ⟨((prompt, model), r) :: st.cache, st.query_count + 1⟩)
    else .error .assertionError

/-- What `fetch_url_and_extract_info` observes about one fetched URL:
the HTTP status, the text extracted from the parsed HTML
(`' '.join(soup.stripped_strings)`), whether the document has a `<title>`
element (`soup.title` is not `None`), and that element's string (which
BeautifulSoup itself can report as `None`). -/
structure HttpResponse : Type where
  status_code : Nat
  body_text : Str
  has_title : Bool
  title_string : Option Str
deriving DecidableEq

/-- `fetch_url_and_extract_info` (lines 85-106).  The argument is the
outcome of `requests.get`: `none` when it raises.  A non-200 status returns
`(None, None)`.  With status 200 the body text is extracted first; if the
document has no `<title>` element, `soup.title.string` raises
`AttributeError`, the `except` clause catches it, and `(None, None)` is
returned — the extracted text is discarded. -/
def fetch_url_and_extract_info (resp : Option HttpResponse) :
    Option Str × Option Str :=
  match resp with
  | none => (none, none)
  | some r =>
    if r.status_code = 200 then
      if r.has_title then (r.title_string, some r.body_text)
      else (none, none)
    else (none, none)

/-- `ddg_top_hit` (lines 73-83), instrumented: `http url` is the outcome of
`requests.get(url)` for the candidate's href, and the search results are the
list of hrefs `ddg(topic)` returned.  The loop fetches candidates in order
and returns on the first whose extracted content is truthy (neither `None`
nor empty).  The second component records which hrefs were fetched, in
order. -/
def ddg_top_hit_run (http : Str → Option HttpResponse) :
    List Str → Option (Str × Option Str × Str) × List Str
  | [] => (none, [])
  | href :: rest =>
    match fetch_url_and_extract_info (http href) with
    | (title, some content) =>
      if content = [] then
        let p := ddg_top_hit_run http rest
        (p.1, href :: p.2)
      else (some (href, title, content), [href])
    | (_, none) =>
      let p := ddg_top_hit_run http rest
      (p.1, href :: p.2)

/-- `ddg_top_hit`'s return value: the first result triple with non-empty
extracted text, or `None` (falling off the loop) when there is none. -/
def ddg_top_hit (http : Str → Option HttpResponse) (results : List Str) :
    Option (Str × Option Str × Str) :=
  (ddg_top_hit_run http results).1

/-- The source-resolution loop of `main` (lines 135-138): for each derived
topic in order, `source, title, content = ddg_top_hit(search)` then
`background[search] = content` and `sources.append((source, title))`.
When `ddg_top_hit` returns `None`, unpacking it into the three names raises
`TypeError`, which nothing catches. -/
def resolveTopics (resolve : Str → Option (Str × Option Str × Str)) :
    List Str → Except PyError (Background × List (Option Str × Option Str))
  | [] => .ok ([], [])
  | t :: ts =>
    match resolve t with
    | none => .error .typeError
    | some (src, title, content) =>
      match resolveTopics resolve ts with
      | .error e => .error e
      | .ok (bg, srcs) => .ok ((t, some content) :: bg, (some src, title) :: srcs)

/-- One line of the Sources report (line 155):
`print(f"* [{title}]({source})")`, where the f-string renders a `None`
value as the literal text `None`. -/
def citation_line (source title : Option Str) : Str :=
  "* [".data ++ py_str title ++ "](".data ++ py_str source ++ ")".data

/-- The Sources report loop (lines 153-155): one line per entry of the
`sources` list, in list order. -/
def citation_lines (sources : List (Option Str × Option Str)) : List Str :=
  sources.map fun st => citation_line st.1 st.2

/-- A model of the summarization step that never grows a block: the token
estimate of the completion is at most the token estimate of the text being
summarized. -/
def NonIncreasingSummarizer (tc : Str → Nat) (sm : Str → Str → Str) : Prop :=
  ∀ k s, tc (sm k s) ≤ tc s

/-- Every entry of the mapping that holds non-empty text fits the ceiling
on its own. -/
def EntriesFit (tc : Str → Nat) (c : Nat) (bg : Background) : Prop :=
  ∀ k s, (k, some s) ∈ bg → s ≠ [] → tc s ≤ c

/-- A concrete tokenizer model: one sub-word token per code point (the
worst case real byte-pair tokenizers exhibit on unusual text). -/
def enc_char : Str → List Nat := fun s => s.map fun _ => 0

/-- A summarization model that echoes the block back unchanged: its token
estimate never increases (it is equal), which the design itself admits the
language model may do. -/
def sm0 : Str → Str → Str := fun _ s => s

/-- A background of two topics, each individually within the
gpt-3.5-turbo ceiling of 4097 under `enc_char` but jointly above it. -/
def bg0 : Background :=
  [(['a'], some (List.replicate 2048 'x')), (['b'], some (List.replicate 2048 'x'))]

/-- A one-topic background whose text fits a small ceiling. -/
def bgW : Background := [(['a'], some "hello".data)]

/-- A sources list whose middle entry has no title. -/
def srcsX : List (Option Str × Option Str) :=
  [(some "u1".data, some "t1".data), (some "u2".data, none),
   (some "u3".data, some "t3".data)]

/-- A page with a title and non-empty extracted text. -/
def resp_hit : HttpResponse := ⟨200, "good text".data, true, some "Good".data⟩

/-- An HTTP layer where only the second candidate URL resolves. -/
def http0 : Str → Option HttpResponse :=
  fun u => if u = "u2".data then some resp_hit else none

/-- An HTTP layer where every fetch raises. -/
def http_none : Str → Option HttpResponse := fun _ => none

/-- A search provider that returns no results. -/
def search_empty : Str → List Str := fun _ => []

/-- A concrete cached prompt (32 characters). -/
def prompt_w : Str := "what is the answer to everything".data

/-- Fuel `s.length + 1` always suffices for the truncation loop when the
empty text fits the ceiling: the loop returns a `take` of the original text
whose token estimate is at most the ceiling. -/
theorem shortenTextFuel_enough (tc : Str → Nat) (c : Nat) (h0 : tc [] ≤ c) :
    ∀ fuel s, s.length < fuel →
      ∃ t n, shortenTextFuel tc c fuel s = some t ∧ t = s.take n ∧ tc t ≤ c := by
  intro fuel
  induction fuel with
  | zero => intro s h; omega
  | succ m ih =>
    intro s hlen
    by_cases hc : tc s ≤ c
    · exact ⟨s, s.length, by simp [shortenTextFuel, hc],
        (List.take_length s).symm, hc⟩
    · have hs : s ≠ [] := by
        intro he
        rw [he] at hc
        exact hc h0
      have hpos : 0 < s.length := List.length_pos.mpr hs
      have hlt : 9 * s.length / 10 < s.length := by omega
      have hlen' : (s.take (9 * s.length / 10)).length < m := by
        simp only [List.length_take]
        omega
      obtain ⟨t, n, heq, htake, hle⟩ := ih _ hlen'
      refine ⟨t, min n (9 * s.length / 10), ?_, ?_, hle⟩
      · simpa [shortenTextFuel, hc] using heq
      · rw [htake, List.take_take]

/-- Whenever the truncation loop returns a text, that text fits the
ceiling. -/
theorem shortenTextFuel_some_le (tc : Str → Nat) (c : Nat) :
    ∀ fuel s t, shortenTextFuel tc c fuel s = some t → tc t ≤ c := by
  intro fuel
  induction fuel with
  | zero => intro s t h; simp [shortenTextFuel] at h
  | succ m ih =>
    intro s t h
    rw [shortenTextFuel] at h
    split at h
    · cases h; assumption
    · exact ih _ _ h

/-- After `shorten` succeeds, every entry holding non-empty text fits the
ceiling on its own. -/
theorem shorten_entries_fit (tc : Str → Nat) (c : Nat) :
    ∀ bg bg', shorten tc c bg = some bg' → EntriesFit tc c bg' := by
  intro bg
  induction bg with
  | nil =>
    intro bg' h k s hmem hne
    simp only [shorten, Option.some.injEq] at h
    subst h
    simp at hmem
  | cons e rest ih =>
    obtain ⟨k0, v0⟩ := e
    intro bg' h k s hmem hne
    cases v0 with
    | none =>
      simp only [shorten, Option.map_eq_some'] at h
      obtain ⟨r, hr, hbg⟩ := h
      subst hbg
      rcases List.mem_cons.mp hmem with hhead | htail
      · simp at hhead
      · exact ih r hr k s htail hne
    | some s0 =>
      by_cases hs0 : s0 = []
      · subst hs0
        simp only [shorten, if_pos rfl] at h
        cases hrest : shorten tc c rest with
        | none => rw [hrest] at h; simp at h
        | some r =>
          rw [hrest] at h
          simp at h
          subst h
          rcases List.mem_cons.mp hmem with hhead | htail
          · simp only [Prod.mk.injEq, Option.some.injEq] at hhead
            exact absurd hhead.2 hne
          · exact ih r hrest k s htail hne
      · simp only [shorten, if_neg hs0] at h
        cases hst : shortenText tc c s0 with
        | none => rw [hst] at h; simp at h
        | some t =>
          rw [hst] at h
          cases hrest : shorten tc c rest with
          | none => rw [hrest] at h; simp at h
          | some r =>
            rw [hrest] at h
            simp at h
            subst h
            rcases List.mem_cons.mp hmem with hhead | htail
            · simp only [Prod.mk.injEq, Option.some.injEq] at hhead
              rw [hhead.2]
              exact shortenTextFuel_some_le tc c _ _ _ hst
            · exact ih r hrest k s htail hne

/-- The single summarization pass preserves the per-entry ceiling bound
when the summarizer never increases a block's token estimate. -/
theorem summarizeGo_fit (tc : Str → Nat) (c : Nat) (sm : Str → Str → Str)
    (hsm : NonIncreasingSummarizer tc sm) :
    ∀ todo done, EntriesFit tc c (done ++ todo) →
      EntriesFit tc c (summarizeGo tc c sm done todo) := by
  intro todo
  induction todo with
  | nil =>
    intro done h
    simpa [summarizeGo] using h
  | cons e rest ih =>
    obtain ⟨k0, v0⟩ := e
    intro done h
    cases v0 with
    | none =>
      simp only [summarizeGo]
      apply ih
      rw [List.append_assoc]
      exact h
    | some s0 =>
      by_cases hs0 : s0 = []
      · subst hs0
        simp only [summarizeGo, if_pos rfl]
        apply ih
        rw [List.append_assoc]
        exact h
      · by_cases hfit :
            tc (background_text (done ++ (k0, some s0) :: rest)) ≤ c
        · simp only [summarizeGo, if_neg hs0, if_pos hfit]
          exact h
        · simp only [summarizeGo, if_neg hs0, if_neg hfit]
          apply ih
          rw [List.append_assoc]
          intro k s hmem hne
          rcases List.mem_append.mp hmem with hd | hcons
          · exact h k s (List.mem_append.mpr (Or.inl hd)) hne
          · rcases List.mem_cons.mp hcons with he | ht
            · simp only [Prod.mk.injEq, Option.some.injEq] at he
              rw [he.2]
              calc tc (sm k0 s0) ≤ tc s0 := hsm k0 s0
                _ ≤ c := h k0 s0
                  (List.mem_append.mpr (Or.inr (List.mem_cons_self _ _))) hs0
            · exact h k s (List.mem_append.mpr (Or.inr
                (List.mem_cons_of_mem _ ht))) hne

/-- A lookup hit in the cache comes from a stored entry. -/
theorem cache_lookup_mem {α β : Type} [DecidableEq α] :
    ∀ (l : List (α × β)) (k : α) (r : β),
      cache_lookup k l = some r → (k, r) ∈ l := by
  intro l
  induction l with
  | nil => intro k r h; simp [cache_lookup] at h
  | cons hd t ih =>
    obtain ⟨a, b⟩ := hd
    intro k r h
    simp only [cache_lookup] at h
    split at h
    · rename_i heq
      cases h
      subst heq
      exact List.mem_cons_self _ _
    · exact List.mem_cons_of_mem _ (ih k r h)

set_option maxRecDepth 8000

/-- Under the one-token-per-code-point tokenizer the estimate is twice the
text's length. -/
theorem token_count_enc_char (l : Str) : token_count enc_char l = 2 * l.length := by
  simp [token_count, enc_char, Nat.mul_comm]

/-- On a two-topic background whose texts both have 2048 code points, the
Context Reducer under `enc_char`, ceiling 4097 and the echoing summarizer
finishes without changing anything, while the serialized whole estimates at
8208 tokens. -/
theorem reduce_two_topics_stuck (T : Str) (hlen : T.length = 2048) :
    context_reduce (token_count enc_char) 4097 sm0
      [(['a'], some T), (['b'], some T)] =
      some [(['a'], some T), (['b'], some T)] ∧
    token_count enc_char
      (background_text [(['a'], some T), (['b'], some T)]) = 8208 := by
  have hTne : T ≠ [] := List.ne_nil_of_length_pos (by omega)
  have htc : token_count enc_char T = 4096 := by
    rw [token_count_enc_char, hlen]
  have hshortT : shortenText (token_count enc_char) 4097 T = some T := by
    rw [shortenText, shortenTextFuel, if_pos (by rw [htc]; norm_num)]
  have hbt : token_count enc_char
      (background_text [(['a'], some T), (['b'], some T)]) = 8208 := by
    rw [token_count_enc_char]
    simp [background_text, py_str, List.intercalate, List.intersperse, hlen]
  have hnotle : ¬ token_count enc_char
      (background_text [(['a'], some T), (['b'], some T)]) ≤ 4097 := by
    rw [hbt]
    norm_num
  have hshorten : shorten (token_count enc_char) 4097
      [(['a'], some T), (['b'], some T)] =
      some [(['a'], some T), (['b'], some T)] := by
    simp [shorten, hTne, hshortT]
  have hsum : summarize (token_count enc_char) 4097 sm0
      [(['a'], some T), (['b'], some T)] =
      [(['a'], some T), (['b'], some T)] := by
    simp [summarize, summarizeGo, hTne, hnotle, sm0]
  refine ⟨?_, hbt⟩
  rw [context_reduce, hshorten]
  simp [hsum]

/-- C1 (counterexample): with the gpt-3.5-turbo ceiling of 4097 and a
summarizer whose output token estimate never exceeds its input's (here it
echoes the block back), the Context Reducer completes on `bg0` leaving it
unchanged — each topic individually fits, the single summarization pass
replaces each block with an equally sized one — yet the serialized
Background still estimates above the ceiling.  The claimed invariant is
therefore false of the code. -/
theorem c1_counterexample :
    max_token_count "gpt-3.5-turbo".data = some 4097 ∧
    NonIncreasingSummarizer (token_count enc_char) sm0 ∧
    context_reduce (token_count enc_char) 4097 sm0 bg0 = some bg0 ∧
    4097 < token_count enc_char (background_text bg0) := by
  have h := reduce_two_topics_stuck (List.replicate 2048 'x')
    (List.length_replicate 2048 'x')
  refine ⟨by decide, fun k s => le_rfl, ?_, ?_⟩
  · unfold bg0
    exact h.1
  · unfold bg0
    rw [h.2]
    norm_num

/-- C1 (amended): after the Context Reducer (shorten followed by the single
summarization pass) completes, with every summarization call modeled as
non-increasing in token estimate, each topic with non-empty text fits the
ceiling individually; the combined serialized Background is not guaranteed
to fit, because `summarize` makes only one pass. -/
theorem c1_reduced_topics_fit_individually (enc : Str → List Nat) (c : Nat)
    (sm : Str → Str → Str) (bg bg' : Background)
    (hsm : NonIncreasingSummarizer (token_count enc) sm)
    (h : context_reduce (token_count enc) c sm bg = some bg') :
    EntriesFit (token_count enc) c bg' := by
  unfold context_reduce at h
  cases hs : shorten (token_count enc) c bg with
  | none => rw [hs] at h; cases h
  | some b =>
    rw [hs] at h
    cases h
    exact summarizeGo_fit _ _ _ hsm b []
      (shorten_entries_fit _ _ bg b hs)

/-- C1 (witness for the amended theorem): on a one-topic background under
ceiling 10 the reducer completes and the topic's text fits. -/
theorem c1_witness :
    NonIncreasingSummarizer (token_count enc_char) sm0 ∧
    context_reduce (token_count enc_char) 10 sm0 bgW = some bgW ∧
    token_count enc_char "hello".data ≤ 10 :=
  ⟨fun k s => le_rfl, by decide,
   c1_reduced_topics_fit_individually enc_char 10 sm0 bgW bgW
     (fun k s => le_rfl) (by decide) ['a'] "hello".data (by decide) (by decide)⟩

/-- C2 (code bug): when the Source Resolver finds nothing for a topic it
returns `None`, and `main`'s `source, title, content = ddg_top_hit(search)`
then raises `TypeError` instead of recording the topic with absent text and
appending a Sources entry.  Here a search returning no results drives the
whole chain into the error. -/
theorem c2_resolver_none_raises_typeerror :
    ddg_top_hit http_none (search_empty "some topic".data) = none ∧
    resolveTopics (fun t => ddg_top_hit http_none (search_empty t))
      ["some topic".data] = .error .typeError :=
  ⟨rfl, rfl⟩

/-- C3 (counterexample): the Sources report prints one line for every
entry; an entry with an absent title is not skipped but rendered with the
literal text `None`.  On a three-entry list with the middle title absent,
the output has three lines and the middle one reads `* [None](u2)`,
refuting the claim that such entries are omitted. -/
theorem c3_counterexample :
    citation_lines srcsX =
      ["* [t1](u1)".data, "* [None](u2)".data, "* [t3](u3)".data] ∧
    (citation_lines srcsX).length = 3 :=
  ⟨by decide, by decide⟩

/-- C3 (amended): the final report prints the Sources list as citations in
original order, one line per positional entry; entries whose title or
origin is absent are not skipped — the absent field is rendered as the
literal text `None`. -/
theorem c3_one_citation_line_per_entry
    (sources : List (Option Str × Option Str)) (i : Nat) :
    (citation_lines sources).length = sources.length ∧
    (citation_lines sources).get? i =
      (sources.get? i).map fun e => citation_line e.1 e.2 := by
  constructor
  · simp [citation_lines]
  · simp [citation_lines]

/-- C4: for any text (in particular one whose token estimate exceeds the
ceiling), the truncation loop of `shorten` — repeated cuts to 90% of the
current length — terminates within its `length + 1` budget, provided only
that the empty text fits the ceiling (true of the doubled tiktoken count,
which is 0 on the empty string); the result is a front segment (`take`) of
the original text whose token estimate is at most the ceiling. -/
theorem c4_truncation_reaches_fitting_front_segment
    (enc : Str → List Nat) (c : Nat) (s : Str)
    (h0 : token_count enc [] ≤ c) :
    ∃ t n, shortenText (token_count enc) c s = some t ∧ t = s.take n ∧
      token_count enc t ≤ c :=
  shortenTextFuel_enough (token_count enc) c h0 (s.length + 1) s
    (Nat.lt_succ_self _)

/-- C4 (witness): with one token per code point and ceiling 4, the loop
cuts `hello!` down to a fitting front segment. -/
theorem c4_witness :
    token_count enc_char [] ≤ 4 ∧
    ∃ t n, shortenText (token_count enc_char) 4 "hello!".data = some t ∧
      t = "hello!".data.take n ∧ token_count enc_char t ≤ 4 :=
  ⟨by decide,
   c4_truncation_reaches_fitting_front_segment enc_char 4 "hello!".data
     (by decide)⟩

/-- C5: the memoized layer runs the wrapped operation at most once across
two calls with an identical key — the second call never executes it
(execution count 0) and returns the same result the first call produced. -/
theorem c5_memoized_runs_at_most_once {α β : Type} [DecidableEq α]
    (f : α → β) (cache : List (α × β)) (k : α) :
    (cached_call f (cached_call f cache k).2.1 k).2.2 = 0 ∧
    (cached_call f (cached_call f cache k).2.1 k).1 =
      (cached_call f cache k).1 ∧
    (cached_call f cache k).2.2 +
      (cached_call f (cached_call f cache k).2.1 k).2.2 ≤ 1 := by
  unfold cached_call
  cases h : cache_lookup k cache with
  | some r => simp [h]
  | none => simp [h, cache_lookup]

/-- C6: the Source Resolver fetches candidates in result order and returns
the triple of the first candidate whose extracted text is truthy; every
earlier candidate that yielded no text (fetch failure or empty extraction)
is merely passed over, and no candidate after the hit is fetched — the
fetch log ends at the hit. -/
theorem c6_first_nonempty_hit (http : Str → Option HttpResponse)
    (pre : List Str) (href : Str) (rest : List Str)
    (title : Option Str) (content : Str)
    (hpre : ∀ u ∈ pre, (fetch_url_and_extract_info (http u)).2 = none ∨
      (fetch_url_and_extract_info (http u)).2 = some [])
    (hhit : fetch_url_and_extract_info (http href) = (title, some content))
    (hne : content ≠ []) :
    ddg_top_hit_run http (pre ++ href :: rest) =
      (some (href, title, content), pre ++ [href]) := by
  induction pre with
  | nil =>
    simp only [List.nil_append]
    rw [ddg_top_hit_run, hhit]
    simp [hne]
  | cons u pre ih =>
    have hu := hpre u (List.mem_cons_self _ _)
    have ih' := ih fun v hv => hpre v (List.mem_cons_of_mem _ hv)
    rcases hfu : fetch_url_and_extract_info (http u) with ⟨t', c'⟩
    rw [hfu] at hu
    simp only [List.cons_append]
    rw [ddg_top_hit_run, hfu]
    rcases hu with hu | hu
    · simp only at hu
      subst hu
      simp [ih']
    · simp only at hu
      subst hu
      simp [ih']

/-- C6 (witness): with the first candidate failing to fetch and the second
yielding text, the resolver returns the second candidate's triple and the
third candidate is never fetched. -/
theorem c6_witness :
    (fetch_url_and_extract_info (http0 "u1".data)).2 = none ∧
    fetch_url_and_extract_info (http0 "u2".data) =
      (some "Good".data, some "good text".data) ∧
    ddg_top_hit_run http0 ["u1".data, "u2".data, "u3".data] =
      (some ("u2".data, some "Good".data, "good text".data),
       ["u1".data, "u2".data]) := by
  refine ⟨by decide, by decide, ?_⟩
  have h := c6_first_nonempty_hit http0 ["u1".data] "u2".data ["u3".data]
    (some "Good".data) "good text".data (by decide) (by decide) (by decide)
  simpa using h

/-- C7: the Token Accountant's estimate is exactly twice the number of
sub-word tokens the tokenizer produces for the text. -/
theorem c7_token_count_doubles_tokenizer (enc : Str → List Nat) (text : Str) :
    token_count enc text = 2 * (enc text).length := by
  simp [token_count, Nat.mul_comm]

/-- C8: when the cache holds only entries for prompts longer than 25
characters (as joblib guarantees, since a raised assertion is never
cached), a call to `gpt` with a prompt of at most 25 characters misses the
cache and the wrapped body fails its `assert len(prompt) > 25` — before the
counter moves and before any completion request: the result is the bare
assertion error, with no new state. -/
theorem c8_short_prompt_hits_assertion (api : Str → Str → Str)
    (active : Str) (st : GptState) (prompt : Str) (model : Option Str)
    (hwf : ∀ p m r, ((p, m), r) ∈ st.cache → 25 < p.length)
    (hshort : prompt.length ≤ 25) :
    gpt api active st prompt model = .error .assertionError := by
  unfold gpt
  cases h : cache_lookup (prompt, model) st.cache with
  | some r =>
    exact absurd (hwf prompt model r (cache_lookup_mem _ _ _ h)) (by omega)
  | none =>
    rw [if_neg (by omega)]

/-- C8 (witness): on an empty cache, the two-character prompt `hi` makes
`gpt` fail its assertion. -/
theorem c8_witness :
    "hi".data.length ≤ 25 ∧
    gpt (fun _ _ => []) "gpt-3.5-turbo".data ⟨[], 0⟩ "hi".data none =
      .error .assertionError :=
  ⟨by decide,
   c8_short_prompt_hits_assertion (fun _ _ => []) "gpt-3.5-turbo".data
     ⟨[], 0⟩ "hi".data none (fun p m r h => by simp at h) (by decide)⟩

/-- C9: a call to `gpt` whose `(prompt, model)` key hits the persistent
cache returns the stored completion with the state — in particular the
global `gpt_query_count` — left unchanged: only cache misses ever increment
the reported counter. -/
theorem c9_cache_hit_leaves_counter (api : Str → Str → Str) (active : Str)
    (st : GptState) (prompt : Str) (model : Option Str) (r : Str)
    (h : cache_lookup (prompt, model) st.cache = some r) :
    gpt api active st prompt model = .ok (r, st) := by
  unfold gpt
  rw [h]

/-- C9 (witness): a cached prompt returns its stored completion and the
counter stays at 7. -/
theorem c9_witness :
    cache_lookup (prompt_w, (none : Option Str))
      [((prompt_w, none), "42".data)] = some "42".data ∧
    gpt (fun _ _ => []) "gpt-3.5-turbo".data
      ⟨[((prompt_w, none), "42".data)], 7⟩ prompt_w none =
      .ok ("42".data, ⟨[((prompt_w, none), "42".data)], 7⟩) :=
  ⟨by decide,
   c9_cache_hit_leaves_counter (fun _ _ => []) "gpt-3.5-turbo".data
     ⟨[((prompt_w, none), "42".data)], 7⟩ prompt_w none "42".data (by decide)⟩

/-- C10: a 200-status page without a `<title>` element makes
`fetch_url_and_extract_info` return `(None, None)` — the body text it had
already extracted is discarded, so the resolver passes the candidate over
as if it had no content. -/
theorem c10_missing_title_discards_text (r : HttpResponse)
    (hstatus : r.status_code = 200) (htitle : r.has_title = false) :
    fetch_url_and_extract_info (some r) = (none, none) := by
  simp [fetch_url_and_extract_info, hstatus, htitle]

/-- C10 (witness): a concrete 200 response with extracted text but no
title element comes back as `(None, None)`. -/
theorem c10_witness :
    (HttpResponse.mk 200 "extracted body".data false none).status_code
      = 200 ∧
    fetch_url_and_extract_info
      (some (HttpResponse.mk 200 "extracted body".data false none)) =
      (none, none) :=
  ⟨rfl, c10_missing_title_discards_text _ rfl rfl⟩

end GptSearch
